import Mathlib

/-!
Verification of the incremental log-tailing and pattern-classification engine of the
serverpulse agent, as implemented in `src/collectors/crash_detector.py` and
`src/collectors/log_monitor.py`.

The Python code is shallowly embedded: file contents are lists of characters, the
per-file read step of `_check_log_files` becomes the pure function `poll_file`, the
monitoring cycle over several sources becomes `check_log_files`, and the classifier
helpers (`_analyze_line`, `_determine_severity`, `_determine_cause`,
`_extract_timestamp`, `_parse_auth_log`, `_parse_generic_log`, ...) become
executable Lean functions.  Regular-expression calls are hand-compiled, pattern by
pattern, into explicit character scans; each such definition carries a doc comment
naming the regex it implements.
-/

namespace ServerPulse

/-! ## Character and substring machinery

The Python code tests membership with `needle in haystack` (contiguous substring)
and lower-cases lines with `str.lower()`.  Log input is ASCII, where `str.lower()`
agrees with `Char.toLower` applied characterwise. -/

/-- Characterwise lower-casing, the embedding of Python `str.lower()` on ASCII text. -/
def lowerList (s : List Char) : List Char := s.map Char.toLower

/-- Does `hay` start with `needle`? (Helper for `py_in`.) -/
def starts_with : List Char → List Char → Bool
  | [], _ => true
  | _ :: _, [] => false
  | a :: as, b :: bs => a = b && starts_with as bs

/-- The embedding of the Python substring test `needle in hay`:
true iff `needle` occurs contiguously inside `hay`. -/
def py_in : List Char → List Char → Bool
  | n, [] => starts_with n []
  | n, b :: bs => starts_with n (b :: bs) || py_in n bs

/-- Existence semantics of a case-folded `re.search` for a regex of the shape
`a.*b` (as in `kernel:.*panic.*`): some occurrence of `a` is followed, at or after
its end, by an occurrence of `b`. -/
def search_seq (a b : List Char) : List Char → Bool
  | [] => starts_with a [] && py_in b []
  | c :: cs => (starts_with a (c :: cs) && py_in b ((c :: cs).drop a.length)) || search_seq a b cs

theorem starts_with_iff (n h : List Char) : starts_with n h = true ↔ n <+: h := by
  induction n generalizing h with
  | nil => simp [starts_with, List.nil_prefix]
  | cons a as ih =>
    cases h with
    | nil => simp [starts_with]
    | cons b bs =>
      simp [starts_with, ih, List.cons_prefix_cons]

theorem py_in_iff (n h : List Char) : py_in n h = true ↔ n <:+: h := by
  induction h with
  | nil =>
    simp only [py_in, starts_with_iff, List.prefix_nil, List.infix_nil]
  | cons b bs ih =>
    simp only [py_in, Bool.or_eq_true, starts_with_iff, ih, List.infix_cons_iff]

theorem py_in_false_of_not {n h : List Char} (hn : ¬ n <:+: h) : py_in n h = false := by
  rcases hb : py_in n h with _ | _
  · rfl
  · exact absurd ((py_in_iff n h).mp hb) hn

/-! ## The tailer: incremental reads of one log file

`_check_log_files` (crash_detector.py lines 98-107 and, identically, log_monitor.py
lines 109-118) opens the file, seeks to the stored offset, calls `readlines()`,
and stores `f.tell()` as the new offset. -/

/-- `readlines()`: split a character sequence into lines, keeping each terminating
newline; a trailing unterminated chunk is returned as a final element without a
newline. -/
def splitLinesKeep : List Char → List (List Char)
  | [] => []
  | c :: cs =>
    match splitLinesKeep cs with
    | [] => [[c]]
    | l :: ls => if c = '\n' then ['\n'] :: l :: ls else (c :: l) :: ls

/-- One poll of one file (crash_detector.py lines 98-107): seek to `pos`, read all
remaining lines with `readlines()`, and record `f.tell()` as the new offset.
Seeking past end-of-file reads nothing and leaves the position at `pos`, so the new
offset is `max pos content.length`. -/
def poll_file (content : List Char) (pos : Nat) : List (List Char) × Nat :=
  (splitLinesKeep (content.drop pos), Nat.max pos content.length)

theorem splitLinesKeep_cons (c : Char) (cs : List Char) :
    splitLinesKeep (c :: cs) =
      match splitLinesKeep cs with
      | [] => [[c]]
      | l :: ls => if c = '\n' then ['\n'] :: l :: ls else (c :: l) :: ls := rfl

theorem splitLinesKeep_ne_nil (c : Char) (cs : List Char) : splitLinesKeep (c :: cs) ≠ [] := by
  cases hsp : splitLinesKeep cs with
  | nil => rw [splitLinesKeep_cons, hsp]; simp
  | cons l ls =>
    rw [splitLinesKeep_cons, hsp]
    by_cases hc : c = '\n' <;> simp [hc]

/-- A file content is at a line boundary when it is empty or ends with a newline. -/
def ends_with_newline (c : List Char) : Bool := c.isEmpty || c.getLast? = some '\n'

theorem splitLinesKeep_append (a b : List Char) (h : ends_with_newline a = true) :
    splitLinesKeep (a ++ b) = splitLinesKeep a ++ splitLinesKeep b := by
  induction a with
  | nil => simp [splitLinesKeep]
  | cons c cs ih =>
    cases cs with
    | nil =>
      have hc : c = '\n' := by simpa [ends_with_newline] using h
      subst hc
      show splitLinesKeep ('\n' :: b) = splitLinesKeep ['\n'] ++ splitLinesKeep b
      have h1 : splitLinesKeep ['\n'] = [['\n']] := rfl
      rw [splitLinesKeep_cons, h1]
      cases hb : splitLinesKeep b with
      | nil => simp [hb]
      | cons l ls => simp [hb]
    | cons d ds =>
      have h' : ends_with_newline (d :: ds) = true := by
        simp only [ends_with_newline, List.isEmpty_cons, Bool.false_or,
          decide_eq_true_eq] at h ⊢
        rwa [List.getLast?_cons_cons] at h
      have ihs : splitLinesKeep ((d :: ds) ++ b) = splitLinesKeep (d :: ds) ++ splitLinesKeep b :=
        ih h'
      rcases hd : splitLinesKeep (d :: ds) with _ | ⟨l, ls⟩
      · exact absurd hd (splitLinesKeep_ne_nil d ds)
      · rw [hd] at ihs
        show splitLinesKeep (c :: ((d :: ds) ++ b)) =
          splitLinesKeep (c :: (d :: ds)) ++ splitLinesKeep b
        rw [splitLinesKeep_cons c ((d :: ds) ++ b), splitLinesKeep_cons c (d :: ds), ihs, hd]
        simp only [List.cons_append]
        by_cases hc : c = '\n' <;> simp [hc]

theorem splitLinesKeep_no_newline (s : List Char) (hne : s ≠ [])
    (h : ∀ x ∈ s, x ≠ '\n') : splitLinesKeep s = [s] := by
  induction s with
  | nil => exact absurd rfl hne
  | cons c cs ih =>
    cases cs with
    | nil =>
      have : c ≠ '\n' := h c (by simp)
      simp [splitLinesKeep, this]
    | cons d ds =>
      have hrest := ih (by simp) (fun x hx => h x (List.mem_cons_of_mem _ hx))
      have hc : c ≠ '\n' := h c (by simp)
      rw [splitLinesKeep_cons, hrest]
      simp [hc]

/-! ## Traces of interleaved writes and polls

A trace interleaves appends to the file, whole-file replacement (rotation), and
polls of the monitor.  The monitor state is the stored offset of
`self.file_positions` together with the batches returned so far. -/

/-- One event acting on a monitored file. -/
inductive FileEv where
  | append (s : List Char)
  | replaceFile (s : List Char)
  | poll
deriving DecidableEq

/-- File content as written so far, stored offset, and the line batches the
successive polls have produced. -/
structure TailerState where
  content : List Char
  pos : Nat
  batches : List (List (List Char))
deriving DecidableEq

/-- Trace step: appends extend the content, replacement substitutes it wholesale
(the code keeps `self.file_positions` untouched in both cases), and a poll runs
`poll_file` and records its batch. -/
def tailer_step (st : TailerState) : FileEv → TailerState
  | .append s => { st with content := st.content ++ s }
  | .replaceFile s => { st with content := s }
  | .poll =>
    let r := poll_file st.content st.pos
    { st with pos := r.2, batches := st.batches ++ [r.1] }

/-- Run a trace from an empty file and a fresh monitor (offset 0, no batches). -/
def tailer_run (t : List FileEv) : TailerState :=
  t.foldl tailer_step { content := [], pos := 0, batches := [] }

/-- A trace of appends and polls (no rotation) in which every poll happens at a
line boundary: when it fires, everything written so far is newline-terminated. -/
def line_aligned_trace : List Char → List FileEv → Bool
  | _, [] => true
  | c, .append s :: t => line_aligned_trace (c ++ s) t
  | _, .replaceFile _ :: _ => false
  | c, .poll :: t => ends_with_newline c && line_aligned_trace c t

theorem line_aligned_append_left (t₁ t₂ : List FileEv) (c : List Char)
    (h : line_aligned_trace c (t₁ ++ t₂) = true) : line_aligned_trace c t₁ = true := by
  induction t₁ generalizing c with
  | nil => rfl
  | cons e t ih =>
    cases e with
    | append s => exact ih (c ++ s) h
    | replaceFile s => simp [line_aligned_trace] at h
    | poll =>
      simp only [List.cons_append, line_aligned_trace, Bool.and_eq_true] at h ⊢
      exact ⟨h.1, ih c h.2⟩

theorem tailer_invariant (t : List FileEv) (st : TailerState)
    (hal : line_aligned_trace st.content t = true)
    (hpos : st.pos ≤ st.content.length)
    (hnl : ends_with_newline (st.content.take st.pos) = true)
    (hb : st.batches.flatten = splitLinesKeep (st.content.take st.pos)) :
    (t.foldl tailer_step st).pos ≤ (t.foldl tailer_step st).content.length ∧
    ends_with_newline ((t.foldl tailer_step st).content.take (t.foldl tailer_step st).pos)
      = true ∧
    (t.foldl tailer_step st).batches.flatten
      = splitLinesKeep ((t.foldl tailer_step st).content.take (t.foldl tailer_step st).pos) := by
  induction t generalizing st with
  | nil => exact ⟨hpos, hnl, hb⟩
  | cons e t ih =>
    cases e with
    | append s =>
      simp only [line_aligned_trace] at hal
      refine ih { st with content := st.content ++ s } hal ?_ ?_ ?_
      · simpa using Nat.le_trans hpos (by simp)
      · simpa [List.take_append_of_le_length hpos] using hnl
      · simpa [List.take_append_of_le_length hpos] using hb
    | replaceFile s =>
      simp [line_aligned_trace] at hal
    | poll =>
      simp only [line_aligned_trace, Bool.and_eq_true] at hal
      obtain ⟨hend, hal'⟩ := hal
      have hm : Nat.max st.pos st.content.length = st.content.length := Nat.max_eq_right hpos
      refine ih _ hal' ?_ ?_ ?_
      · show Nat.max st.pos st.content.length ≤ st.content.length
        rw [hm]
      · show ends_with_newline (st.content.take (Nat.max st.pos st.content.length)) = true
        rw [hm, List.take_length]
        exact hend
      · show (st.batches ++ [(poll_file st.content st.pos).1]).flatten
          = splitLinesKeep (st.content.take (Nat.max st.pos st.content.length))
        rw [hm, List.take_length, List.flatten_append, hb]
        simp only [poll_file, List.flatten_cons, List.flatten_nil, List.append_nil]
        rw [← splitLinesKeep_append _ _ hnl, List.take_append_drop]

/-- C1, amended.  For a trace of appends and polls (no rotation) starting from an
empty file, in which every poll fires at a line boundary, the concatenation of all
line batches produced by the successive polls (a final poll flushing the last
lines) is exactly the list of complete lines of the file, in file order: no line
twice, none skipped. -/
theorem tailing_no_loss_no_duplication (t : List FileEv)
    (h : line_aligned_trace [] (t ++ [FileEv.poll]) = true) :
    (tailer_run (t ++ [FileEv.poll])).batches.flatten
      = splitLinesKeep ((tailer_run (t ++ [FileEv.poll])).content) := by
  obtain ⟨hp, hn, hb⟩ := tailer_invariant (t ++ [FileEv.poll])
    { content := [], pos := 0, batches := [] } h (by simp) (by simp [ends_with_newline])
    (by simp [splitLinesKeep])
  have halt : line_aligned_trace [] t = true := line_aligned_append_left t [FileEv.poll] [] h
  obtain ⟨hpt, -, -⟩ := tailer_invariant t
    { content := [], pos := 0, batches := [] } halt (by simp) (by simp [ends_with_newline])
    (by simp [splitLinesKeep])
  have hsplit : tailer_run (t ++ [FileEv.poll])
      = tailer_step (List.foldl tailer_step { content := [], pos := 0, batches := [] } t)
        FileEv.poll := by
    simp [tailer_run, List.foldl_append]
  have hposfin : (tailer_run (t ++ [FileEv.poll])).pos
      = (tailer_run (t ++ [FileEv.poll])).content.length := by
    rw [hsplit]
    exact Nat.max_eq_right hpt
  show (tailer_run (t ++ [FileEv.poll])).batches.flatten = _
  have hb' : (tailer_run (t ++ [FileEv.poll])).batches.flatten
      = splitLinesKeep ((tailer_run (t ++ [FileEv.poll])).content.take
          (tailer_run (t ++ [FileEv.poll])).pos) := hb
  rw [hb', hposfin, List.take_length]

/-- C1 witness: a concrete line-aligned trace; the batches concatenate to exactly
the three appended lines. -/
theorem tailing_no_loss_no_duplication_witness :
    (tailer_run ([FileEv.append ['a', '\n', 'b', '\n'], FileEv.poll,
        FileEv.append ['c', '\n']] ++ [FileEv.poll])).batches.flatten
      = splitLinesKeep ((tailer_run ([FileEv.append ['a', '\n', 'b', '\n'], FileEv.poll,
        FileEv.append ['c', '\n']] ++ [FileEv.poll])).content) :=
  tailing_no_loss_no_duplication
    [FileEv.append ['a', '\n', 'b', '\n'], FileEv.poll, FileEv.append ['c', '\n']] (by decide)

/-- C1 counterexample.  One newline-terminated line "abc" is appended in two write
chunks with a poll in between: the first poll returns the unterminated fragment
"ab" and the second returns "c\n", so the concatenation of the batches is not the
single complete line — the claim fails when writes are chunked mid-line relative
to poll timing. -/
theorem tailing_chunked_write_counterexample :
    (tailer_run [FileEv.append ['a', 'b'], FileEv.poll, FileEv.append ['c', '\n'],
        FileEv.poll]).content = ['a', 'b', 'c', '\n'] ∧
    (tailer_run [FileEv.append ['a', 'b'], FileEv.poll, FileEv.append ['c', '\n'],
        FileEv.poll]).batches.flatten
      ≠ splitLinesKeep ['a', 'b', 'c', '\n'] := by decide

/-- C2, amended.  `_check_log_files` performs no identity or size check at all: the
stored offset is used unchanged as the seek position.  After the file is replaced
by one no longer than the stale offset, the poll seeks past end-of-file, returns
no lines, and leaves the stale offset in place (so the new file is NOT read from
its beginning). -/
theorem poll_after_truncation_returns_nothing (content : List Char) (pos : Nat)
    (h : content.length ≤ pos) : poll_file content pos = ([], pos) := by
  simp only [poll_file, List.drop_eq_nil_of_le h, splitLinesKeep]
  have hm : Nat.max pos content.length = pos := Nat.max_eq_left h
  rw [hm]

/-- C2 witness: with stale offset 5 and a replacement file of two characters, the
poll returns no lines and keeps offset 5. -/
theorem poll_after_truncation_returns_nothing_witness :
    poll_file ['b', '\n'] 5 = ([], 5) :=
  poll_after_truncation_returns_nothing ['b', '\n'] 5 (by decide)

/-- C2 counterexample.  A five-character file is polled (offset 5), then replaced
by the shorter file "b\n".  The claim predicts the next poll resets the offset and
returns the new file line; the code returns an empty batch and keeps the stale
offset 5. -/
theorem rotation_reset_counterexample :
    (tailer_run [FileEv.append ['a', 'a', 'a', 'a', '\n'], FileEv.poll,
        FileEv.replaceFile ['b', '\n'], FileEv.poll]).batches
      = [[['a', 'a', 'a', 'a', '\n']], []] ∧
    (tailer_run [FileEv.append ['a', 'a', 'a', 'a', '\n'], FileEv.poll,
        FileEv.replaceFile ['b', '\n'], FileEv.poll]).pos = 5 ∧
    (tailer_run [FileEv.append ['a', 'a', 'a', 'a', '\n'], FileEv.poll,
        FileEv.replaceFile ['b', '\n'], FileEv.poll]).pos ≠ 0 := by decide

/-- C3, amended.  A trailing byte sequence not terminated by a newline IS returned
by the poll (as the final, unterminated batch element), and the stored offset
advances all the way to end-of-file — `readlines()` returns the partial chunk and
`f.tell()` is end-of-file — rather than being deferred to the next poll. -/
theorem poll_returns_partial_tail (content : List Char) (pos : Nat)
    (hp : pos ≤ content.length) (hne : content.drop pos ≠ [])
    (hnl : ∀ x ∈ content.drop pos, x ≠ '\n') :
    poll_file content pos = ([content.drop pos], content.length) := by
  simp only [poll_file]
  rw [splitLinesKeep_no_newline _ hne hnl]
  have hm : Nat.max pos content.length = content.length := Nat.max_eq_right hp
  rw [hm]

/-- C3 witness: polling a file holding only the unterminated bytes "ab" returns
them as a (partial) line and moves the offset to end-of-file. -/
theorem poll_returns_partial_tail_witness :
    poll_file ['a', 'b'] 0 = ([['a', 'b']], 2) :=
  poll_returns_partial_tail ['a', 'b'] 0 (by decide) (by decide) (by decide)

/-- C3 counterexample.  The file ends with the partial bytes "cd" (no terminator).
The claim predicts the poll returns only the complete line and offset 3; the code
returns the partial chunk as well and advances the offset to end-of-file (5). -/
theorem partial_line_deferral_counterexample :
    poll_file ['a', 'b', '\n', 'c', 'd'] 0 = ([['a', 'b', '\n'], ['c', 'd']], 5) ∧
    (poll_file ['a', 'b', '\n', 'c', 'd'] 0).2 ≠ 3 := by decide

/-! ## One monitoring cycle over several sources

`_check_log_files` (crash_detector.py lines 91-117, log_monitor.py lines 100-128)
iterates the configured paths: a missing file is skipped with `continue`; a file
whose open or read raises is caught by the per-path `try`/`except`, logged, and
leaves `self.file_positions` untouched; a readable file is polled.  The `get(path,
0)` default is modelled by storing offsets as `Option Nat` read with `getD 0`. -/

/-- What the filesystem presents for a path at poll time: no file, a file whose
open/read raises an I/O error, or readable content. -/
inductive FileAccess where
  | absent
  | ioError
  | readable (content : List Char)
deriving DecidableEq

/-- One full cycle of `_check_log_files`: returns the updated offset table and the
per-source batches, in source order. -/
def check_log_files (fs : String → FileAccess) :
    List String → (String → Option Nat) → (String → Option Nat) × List (String × List (List Char))
  | [], positions => (positions, [])
  | path :: rest, positions =>
    match fs path with
    | .absent => check_log_files fs rest positions
    | .ioError => check_log_files fs rest positions
    | .readable c =>
      let r := poll_file c ((positions path).getD 0)
      let next := check_log_files fs rest (fun q => if q = path then some r.2 else positions q)
      (next.1, (path, r.1) :: next.2)

theorem check_log_files_pos_not_mem (fs : String → FileAccess) (paths : List String)
    (positions : String → Option Nat) (p : String) (hp : p ∉ paths) :
    (check_log_files fs paths positions).1 p = positions p := by
  induction paths generalizing positions with
  | nil => rfl
  | cons path rest ih =>
    have hne : p ≠ path := fun h => hp (h ▸ List.mem_cons_self path rest)
    have hnr : p ∉ rest := fun h => hp (List.mem_cons_of_mem _ h)
    cases hacc : fs path with
    | absent => simp only [check_log_files, hacc]; exact ih positions hnr
    | ioError => simp only [check_log_files, hacc]; exact ih positions hnr
    | readable c =>
      simp only [check_log_files, hacc]
      rw [ih _ hnr]
      simp [hne]

theorem check_log_files_batch_paths (fs : String → FileAccess) (paths : List String)
    (positions : String → Option Nat) (b : String × List (List Char))
    (hb : b ∈ (check_log_files fs paths positions).2) : b.1 ∈ paths := by
  induction paths generalizing positions with
  | nil => exact absurd hb (List.not_mem_nil b)
  | cons path rest ih =>
    cases hacc : fs path with
    | absent =>
      simp only [check_log_files, hacc] at hb
      exact List.mem_cons_of_mem _ (ih positions hb)
    | ioError =>
      simp only [check_log_files, hacc] at hb
      exact List.mem_cons_of_mem _ (ih positions hb)
    | readable c =>
      simp only [check_log_files, hacc] at hb
      rcases List.mem_cons.mp hb with rfl | hbr
      · exact List.mem_cons_self _ _
      · exact List.mem_cons_of_mem _ (ih _ hbr)

/-- C8.  Per-source fault isolation in a cycle: a source whose file is absent, or
whose open/read raises, contributes no batch and keeps its stored offset
unchanged; every readable source is still polled in the same cycle, with the batch
and offset update that `poll_file` prescribes from its own stored offset. -/
theorem per_source_fault_isolation (fs : String → FileAccess) (paths : List String)
    (positions : String → Option Nat) (hnd : paths.Nodup) :
    (∀ p ∈ paths, (fs p = FileAccess.absent ∨ fs p = FileAccess.ioError) →
       (check_log_files fs paths positions).1 p = positions p ∧
       ∀ b ∈ (check_log_files fs paths positions).2, b.1 ≠ p) ∧
    (∀ p ∈ paths, ∀ c, fs p = FileAccess.readable c →
       (p, (poll_file c ((positions p).getD 0)).1) ∈ (check_log_files fs paths positions).2 ∧
       (check_log_files fs paths positions).1 p
         = some (poll_file c ((positions p).getD 0)).2) := by
  induction paths generalizing positions with
  | nil => exact ⟨fun p hp => absurd hp (List.not_mem_nil p), fun p hp => absurd hp (List.not_mem_nil p)⟩
  | cons path rest ih =>
    obtain ⟨hnp, hndr⟩ := List.nodup_cons.mp hnd
    constructor
    · intro p hp herr
      rcases List.mem_cons.mp hp with rfl | hpr
      · -- the failing source itself
        rcases herr with hacc | hacc
        all_goals
          simp only [check_log_files, hacc]
          refine ⟨check_log_files_pos_not_mem fs rest positions p hnp, ?_⟩
          intro b hb hbp
          exact hnp (hbp ▸ check_log_files_batch_paths fs rest positions b hb)
      · -- a failing source further down the list
        cases hacc : fs path with
        | absent =>
          simp only [check_log_files, hacc]
          exact (ih positions hndr).1 p hpr herr
        | ioError =>
          simp only [check_log_files, hacc]
          exact (ih positions hndr).1 p hpr herr
        | readable c =>
          have hne : p ≠ path := fun h => hnp (h ▸ hpr)
          simp only [check_log_files, hacc]
          obtain ⟨h1, h2⟩ := (ih (fun q => if q = path then
            some (poll_file c ((positions path).getD 0)).2 else positions q) hndr).1 p hpr herr
          refine ⟨by rw [h1]; simp [hne], ?_⟩
          intro b hb
          rcases List.mem_cons.mp hb with rfl | hbr
          · exact fun hcontra => hne hcontra.symm
          · exact h2 b hbr
    · intro p hp c hacc
      rcases List.mem_cons.mp hp with rfl | hpr
      · simp only [check_log_files, hacc]
        refine ⟨List.mem_cons_self _ _, ?_⟩
        rw [check_log_files_pos_not_mem fs rest _ p hnp]
        simp
      · cases haccp : fs path with
        | absent =>
          simp only [check_log_files, haccp]
          exact (ih positions hndr).2 p hpr c hacc
        | ioError =>
          simp only [check_log_files, haccp]
          exact (ih positions hndr).2 p hpr c hacc
        | readable c' =>
          have hne : p ≠ path := fun h => hnp (h ▸ hpr)
          simp only [check_log_files, haccp]
          obtain ⟨h1, h2⟩ := (ih (fun q => if q = path then
            some (poll_file c' ((positions path).getD 0)).2 else positions q) hndr).2 p hpr c hacc
          simp only [hne, if_false] at h1 h2
          exact ⟨List.mem_cons_of_mem _ h1, h2⟩

/-- C8 witness: syslog missing, kern.log unreadable, messages readable.  The
missing source keeps its (unset) offset and the readable one is still polled. -/
theorem per_source_fault_isolation_witness :
    (check_log_files
        (fun q => if q = "/var/log/syslog" then FileAccess.absent
          else if q = "/var/log/kern.log" then FileAccess.ioError
          else FileAccess.readable ['x', '\n'])
        ["/var/log/syslog", "/var/log/kern.log", "/var/log/messages"]
        (fun _ => none)).1 "/var/log/syslog" = none ∧
    ("/var/log/messages", [['x', '\n']]) ∈ (check_log_files
        (fun q => if q = "/var/log/syslog" then FileAccess.absent
          else if q = "/var/log/kern.log" then FileAccess.ioError
          else FileAccess.readable ['x', '\n'])
        ["/var/log/syslog", "/var/log/kern.log", "/var/log/messages"]
        (fun _ => none)).2 := by
  have h := per_source_fault_isolation
    (fun q => if q = "/var/log/syslog" then FileAccess.absent
      else if q = "/var/log/kern.log" then FileAccess.ioError
      else FileAccess.readable ['x', '\n'])
    ["/var/log/syslog", "/var/log/kern.log", "/var/log/messages"]
    (fun _ => none) (by decide)
  exact ⟨(h.1 "/var/log/syslog" (by decide) (Or.inl (by decide))).1,
    (h.2 "/var/log/messages" (by decide) ['x', '\n'] (by decide)).1⟩

/-! ## Startup offset initialization

`start_monitoring` (crash_detector.py lines 69-80, log_monitor.py lines 77-89)
seeds `self.file_positions` before the loop: an existing readable file gets its
end-of-file position, an existing unreadable file gets 0, and an absent path gets
no entry at all (which `_check_log_files` later reads as 0 via `get(path, 0)`). -/

/-- The position-seeding loop of `start_monitoring`. -/
def init_positions (fs : String → FileAccess) :
    List String → (String → Option Nat) → (String → Option Nat)
  | [], positions => positions
  | path :: rest, positions =>
    match fs path with
    | .absent => init_positions fs rest positions
    | .ioError => init_positions fs rest (fun q => if q = path then some 0 else positions q)
    | .readable c =>
      init_positions fs rest (fun q => if q = path then some c.length else positions q)

theorem init_positions_not_mem (fs : String → FileAccess) (paths : List String)
    (positions : String → Option Nat) (p : String) (hp : p ∉ paths) :
    init_positions fs paths positions p = positions p := by
  induction paths generalizing positions with
  | nil => rfl
  | cons path rest ih =>
    have hne : p ≠ path := fun h => hp (h ▸ List.mem_cons_self path rest)
    have hnr : p ∉ rest := fun h => hp (List.mem_cons_of_mem _ h)
    cases hacc : fs path with
    | absent => simp only [init_positions, hacc]; exact ih positions hnr
    | ioError => simp only [init_positions, hacc]; rw [ih _ hnr]; simp [hne]
    | readable c => simp only [init_positions, hacc]; rw [ih _ hnr]; simp [hne]

theorem init_positions_char (fs : String → FileAccess) (paths : List String)
    (positions : String → Option Nat) (p : String) (hnd : paths.Nodup) (hp : p ∈ paths) :
    init_positions fs paths positions p =
      match fs p with
      | .absent => positions p
      | .ioError => some 0
      | .readable c => some c.length := by
  induction paths generalizing positions with
  | nil => exact absurd hp (List.not_mem_nil p)
  | cons path rest ih =>
    obtain ⟨hnp, hndr⟩ := List.nodup_cons.mp hnd
    rcases List.mem_cons.mp hp with rfl | hpr
    · cases hacc : fs p with
      | absent => simp only [init_positions, hacc]; rw [init_positions_not_mem fs rest _ p hnp]
      | ioError =>
        simp only [init_positions, hacc]
        rw [init_positions_not_mem fs rest _ p hnp]
        simp
      | readable c =>
        simp only [init_positions, hacc]
        rw [init_positions_not_mem fs rest _ p hnp]
        simp
    · have hne : p ≠ path := fun h => hnp (h ▸ hpr)
      cases hacc : fs path with
      | absent => simp only [init_positions, hacc]; exact ih positions hndr hpr
      | ioError =>
        simp only [init_positions, hacc]
        rw [ih _ hndr hpr]
        cases fs p <;> simp [hne]
      | readable c =>
        simp only [init_positions, hacc]
        rw [ih _ hndr hpr]
        cases fs p <;> simp [hne]

/-- C10.  Startup offsets: a source readable at startup starts at end-of-file, so
the first poll sees only bytes appended after startup (pre-startup content is
never returned); a source absent or unreadable at startup has effective offset 0,
so the first successful poll returns the entire content from the beginning. -/
theorem startup_offset_initialization (fs : String → FileAccess) (paths : List String)
    (p : String) (hnd : paths.Nodup) (hp : p ∈ paths) :
    (∀ c, fs p = FileAccess.readable c →
       init_positions fs paths (fun _ => none) p = some c.length ∧
       ∀ t, poll_file (c ++ t) ((init_positions fs paths (fun _ => none) p).getD 0)
         = (splitLinesKeep t, (c ++ t).length)) ∧
    ((fs p = FileAccess.absent ∨ fs p = FileAccess.ioError) →
       (init_positions fs paths (fun _ => none) p).getD 0 = 0 ∧
       ∀ c, poll_file c 0 = (splitLinesKeep c, c.length)) := by
  have hchar := init_positions_char fs paths (fun _ => none) p hnd hp
  constructor
  · intro c hacc
    rw [hacc] at hchar
    refine ⟨hchar, ?_⟩
    intro t
    rw [hchar]
    simp only [Option.getD_some, poll_file, List.drop_left]
    have hm : Nat.max c.length (c ++ t).length = (c ++ t).length :=
      Nat.max_eq_right (by simp)
    rw [hm]
  · intro hacc
    have h0 : (init_positions fs paths (fun _ => none) p).getD 0 = 0 := by
      rcases hacc with hacc | hacc <;> rw [hacc] at hchar <;> simp [hchar]
    refine ⟨h0, ?_⟩
    intro c
    simp only [poll_file, List.drop_zero]
    have hm : Nat.max 0 c.length = c.length := Nat.max_eq_right (Nat.zero_le _)
    rw [hm]

/-- C10 witness: "/a" readable with content "hi\n" starts at offset 3, and a first
poll over the grown file returns only the appended line. -/
theorem startup_offset_initialization_witness :
    init_positions (fun q => if q = "/a" then FileAccess.readable ['h', 'i', '\n']
        else FileAccess.absent) ["/a", "/b"] (fun _ => none) "/a" = some 3 ∧
    poll_file (['h', 'i', '\n'] ++ ['o', 'k', '\n'])
        ((init_positions (fun q => if q = "/a" then FileAccess.readable ['h', 'i', '\n']
          else FileAccess.absent) ["/a", "/b"] (fun _ => none) "/a").getD 0)
      = (splitLinesKeep ['o', 'k', '\n'], 6) := by
  have h := startup_offset_initialization
    (fun q => if q = "/a" then FileAccess.readable ['h', 'i', '\n'] else FileAccess.absent)
    ["/a", "/b"] "/a" (by decide) (by decide)
  obtain ⟨h1, h2⟩ := h.1 ['h', 'i', '\n'] (by decide)
  exact ⟨h1, h2 ['o', 'k', '\n']⟩

/-! ## The monitoring loop and cancellation

`start_monitoring` (crash_detector.py lines 82-89, log_monitor.py lines 91-98)
runs `while not stop_event.is_set() and self.running:` around
`_check_log_files(...)` followed by `time.sleep(interval)`.  Discrete-time model:
one step is one time unit; `time.sleep(interval)` spends `interval` steps during
which the stop event is NOT consulted (Python `time.sleep` is not interruptible by
a `threading.Event`); the guard consults the stop flag only in the `check` phase,
where the poll body also runs before sleeping. -/

/-- Phase of the monitoring loop. -/
inductive LoopPhase where
  | check
  | sleeping (remaining : Nat)
  | exited
deriving DecidableEq

/-- One discrete time step of the loop under a given stop-flag value. -/
def monitor_loop_step (interval : Nat) (stopSet : Bool) : LoopPhase → LoopPhase
  | .check => if stopSet then .exited else .sleeping interval
  | .sleeping (k + 1) => .sleeping k
  | .sleeping 0 => .check
  | .exited => .exited

theorem monitor_loop_exited_fixed (interval : Nat) (s : Bool) (n : Nat) :
    (monitor_loop_step interval s)^[n] LoopPhase.exited = LoopPhase.exited := by
  induction n with
  | zero => rfl
  | succ n ih => rw [Function.iterate_succ_apply]; exact ih

theorem monitor_loop_check_exit (interval n : Nat) :
    (monitor_loop_step interval true)^[n] LoopPhase.check = LoopPhase.exited ↔ 1 ≤ n := by
  cases n with
  | zero => simp
  | succ n =>
    rw [Function.iterate_succ_apply]
    show (monitor_loop_step interval true)^[n] LoopPhase.exited = LoopPhase.exited ↔ _
    simp [monitor_loop_exited_fixed]

/-- C9, amended.  Once the stop event is set while the loop is inside
`time.sleep` with `k` ticks remaining, the sleep completes in full and the loop
exits only at the next guard check: exit happens exactly when `k + 2` steps have
elapsed, so the time from cancellation to exit IS lower-bounded by the remaining
sleep interval. -/
theorem monitor_loop_exit_iff (interval k n : Nat) :
    (monitor_loop_step interval true)^[n] (LoopPhase.sleeping k) = LoopPhase.exited
      ↔ k + 2 ≤ n := by
  induction k generalizing n with
  | zero =>
    cases n with
    | zero => simp
    | succ n =>
      rw [Function.iterate_succ_apply]
      show (monitor_loop_step interval true)^[n] LoopPhase.check = LoopPhase.exited ↔ _
      rw [monitor_loop_check_exit]
      omega
  | succ k ih =>
    cases n with
    | zero => simp
    | succ n =>
      rw [Function.iterate_succ_apply]
      show (monitor_loop_step interval true)^[n] (LoopPhase.sleeping k) = LoopPhase.exited ↔ _
      rw [ih]
      omega

/-- C9 witness: cancellation at the start of a 3-tick sleep leads to exit after
exactly 5 steps. -/
theorem monitor_loop_exit_iff_witness :
    (monitor_loop_step 5 true)^[5] (LoopPhase.sleeping 3) = LoopPhase.exited :=
  (monitor_loop_exit_iff 5 3 5).mpr (by decide)

/-- C9 counterexample.  The stop event is set for the whole run, yet with 5 sleep
ticks remaining the loop is still not exited after 5 steps — exit after
cancellation is lower-bounded by the remaining sleep, contradicting the claim of
prompt, sleep-interrupting exit. -/
theorem prompt_cancellation_counterexample :
    (monitor_loop_step 5 true)^[5] (LoopPhase.sleeping 5) ≠ LoopPhase.exited ∧
    (monitor_loop_step 5 true)^[7] (LoopPhase.sleeping 5) = LoopPhase.exited := by decide

/-! ## Hand-compiled regular expressions

Each `re` call of the Python code is compiled by hand into an explicit character
scan.  `re.search` semantics: try the pattern at every start position from the
left; the first position where it matches wins.  Greedy quantifiers backtrack;
where a greedy run is followed by a disjoint character class (whitespace followed
by digits, and so on), maximal munch is exact, and the one counted quantifier
with a genuine choice, the day field `\d` repeated one-or-two times, tries two
digits first and falls back to one, exactly as the backtracking engine does.
Log lines are ASCII, where `\w` is letters, digits and underscore and `\s` is the
six ASCII whitespace characters. -/

/-- The class `\w` on ASCII. -/
def is_word_char (c : Char) : Bool := c.isAlphanum || c = '_'

/-- The class `\s` on ASCII. -/
def is_space_char (c : Char) : Bool :=
  c = ' ' || c = '\t' || c = '\n' || c = '\x0b' || c = '\x0c' || c = '\r'

/-- Consume the literal `needle` at the head of the input, returning the rest. -/
def take_lit : List Char → List Char → Option (List Char)
  | [], cs => some cs
  | _ :: _, [] => none
  | n :: ns, c :: cs => if c = n then take_lit ns cs else none

/-- Consume exactly `n` characters satisfying `p` (a counted class such as `\d\d`). -/
def take_count (p : Char → Bool) : Nat → List Char → Option (List Char × List Char)
  | 0, cs => some ([], cs)
  | _ + 1, [] => none
  | n + 1, c :: cs =>
    if p c then (take_count p n cs).map (fun r => (c :: r.1, r.2)) else none

/-- Consume a maximal nonempty run of characters satisfying `p` (greedy plus). -/
def take_plus (p : Char → Bool) : List Char → Option (List Char × List Char)
  | [] => none
  | c :: cs => if p c then some (c :: cs.takeWhile p, cs.dropWhile p) else none

/-- Leftmost search: try the matcher at every position, left to right. -/
def search_at {α : Type} (m : List Char → Option α) : List Char → Option α
  | [] => m []
  | c :: cs =>
    match m (c :: cs) with
    | some r => some r
    | none => search_at m cs

/-- The tail `\d\d:\d\d:\d\d` shared by all timestamp patterns. -/
def match_hms (cs : List Char) : Option (List Char × List Char) :=
  (take_count Char.isDigit 2 cs).bind fun r1 =>
  (take_lit [':'] r1.2).bind fun r2 =>
  (take_count Char.isDigit 2 r2).bind fun r3 =>
  (take_lit [':'] r3.2).bind fun r4 =>
  (take_count Char.isDigit 2 r4).map fun r5 =>
    (r1.1 ++ ':' :: r3.1 ++ ':' :: r5.1, r5.2)

/-- The syslog timestamp pattern, `\w` three times, `\s+`, a one-or-two digit day,
`\s+`, then the time — "Dec 25 14:30:45" — matched at one position. -/
def match_ts_syslog (cs : List Char) : Option (List Char) :=
  (take_count is_word_char 3 cs).bind fun r1 =>
  (take_plus is_space_char r1.2).bind fun r2 =>
  let cont := fun (d r : List Char) =>
    (take_plus is_space_char r).bind fun r4 =>
    (match_hms r4.2).map fun r5 => d ++ r4.1 ++ r5.1
  match (take_count Char.isDigit 2 r2.2).bind (fun r3 => cont r3.1 r3.2) with
  | some t => some (r1.1 ++ r2.1 ++ t)
  | none =>
    ((take_count Char.isDigit 1 r2.2).bind (fun r3 => cont r3.1 r3.2)).map
      fun t => r1.1 ++ r2.1 ++ t

/-- The ISO timestamp with a literal T: four digits, dash, two, dash, two, T,
then the time — "2023-12-25T14:30:45". -/
def match_ts_isoT (cs : List Char) : Option (List Char) :=
  (take_count Char.isDigit 4 cs).bind fun r1 =>
  (take_lit ['-'] r1.2).bind fun r2 =>
  (take_count Char.isDigit 2 r2).bind fun r3 =>
  (take_lit ['-'] r3.2).bind fun r4 =>
  (take_count Char.isDigit 2 r4).bind fun r5 =>
  (take_lit ['T'] r5.2).bind fun r6 =>
  (match_hms r6).map fun r7 =>
    r1.1 ++ '-' :: r3.1 ++ '-' :: r5.1 ++ 'T' :: r7.1

/-- The ISO timestamp with `\s+` between date and time — "2023-12-25 14:30:45". -/
def match_ts_iso_sp (cs : List Char) : Option (List Char) :=
  (take_count Char.isDigit 4 cs).bind fun r1 =>
  (take_lit ['-'] r1.2).bind fun r2 =>
  (take_count Char.isDigit 2 r2).bind fun r3 =>
  (take_lit ['-'] r3.2).bind fun r4 =>
  (take_count Char.isDigit 2 r4).bind fun r5 =>
  (take_plus is_space_char r5.2).bind fun r6 =>
  (match_hms r6.2).map fun r7 =>
    r1.1 ++ '-' :: r3.1 ++ '-' :: r5.1 ++ r6.1 ++ r7.1

/-- The access-log timestamp: two digits, slash, `\w` three times, slash, four
digits, colon, then the time — "25/Dec/2023:14:30:45" (log_monitor only). -/
def match_ts_slash (cs : List Char) : Option (List Char) :=
  (take_count Char.isDigit 2 cs).bind fun r1 =>
  (take_lit ['/'] r1.2).bind fun r2 =>
  (take_count is_word_char 3 r2).bind fun r3 =>
  (take_lit ['/'] r3.2).bind fun r4 =>
  (take_count Char.isDigit 4 r4).bind fun r5 =>
  (take_lit [':'] r5.2).bind fun r6 =>
  (match_hms r6).map fun r7 =>
    r1.1 ++ '/' :: r3.1 ++ '/' :: r5.1 ++ ':' :: r7.1

/-- crash_detector.py `_extract_timestamp` (lines 146-161): three timestamp
patterns tried in order, first search success wins.  `none` models the
`datetime.now()` wall-clock fallback of line 161. -/
def crash_extract_timestamp (line : String) : Option String :=
  match search_at match_ts_syslog line.toList with
  | some t => some (String.mk t)
  | none =>
    match search_at match_ts_isoT line.toList with
    | some t => some (String.mk t)
    | none =>
      match search_at match_ts_iso_sp line.toList with
      | some t => some (String.mk t)
      | none => none

/-- log_monitor.py `_extract_timestamp` (lines 290-306): same, with a fourth
access-log pattern. -/
def monitor_extract_timestamp (line : String) : Option String :=
  match search_at match_ts_syslog line.toList with
  | some t => some (String.mk t)
  | none =>
    match search_at match_ts_isoT line.toList with
    | some t => some (String.mk t)
    | none =>
      match search_at match_ts_iso_sp line.toList with
      | some t => some (String.mk t)
      | none =>
        match search_at match_ts_slash line.toList with
        | some t => some (String.mk t)
        | none => none

/-- The group of the username regex of `_parse_auth_log` line 174: literal "user",
`\s+`, then a captured `\w+`. -/
def match_user_capture (cs : List Char) : Option (List Char) :=
  (take_lit "user".toList cs).bind fun r1 =>
  (take_plus is_space_char r1).bind fun r2 =>
  (take_plus is_word_char r2.2).map fun r3 => r3.1

/-- Group 1 of searching the username regex of `_parse_auth_log` line 174. -/
def re_user_group (line : String) : Option String :=
  (search_at match_user_capture line.toList).map String.mk

/-- The group of the source-address regex of `_parse_auth_log` line 178: literal
"from", `\s+`, then a captured run of digits and dots. -/
def match_fromip_capture (cs : List Char) : Option (List Char) :=
  (take_lit "from".toList cs).bind fun r1 =>
  (take_plus is_space_char r1).bind fun r2 =>
  (take_plus (fun c => c.isDigit || c = '.') r2.2).map fun r3 => r3.1

/-- Group 1 of searching the source-address regex of `_parse_auth_log` line 178. -/
def re_fromip_group (line : String) : Option String :=
  (search_at match_fromip_capture line.toList).map String.mk

/-- The group of the invalid-user regex of `_parse_auth_log` line 186: literal
"Invalid user", `\s+`, then a captured `\w+`. -/
def match_invalid_user_capture (cs : List Char) : Option (List Char) :=
  (take_lit "Invalid user".toList cs).bind fun r1 =>
  (take_plus is_space_char r1).bind fun r2 =>
  (take_plus is_word_char r2.2).map fun r3 => r3.1

/-- Group 1 of searching the invalid-user regex of `_parse_auth_log` line 186. -/
def re_invalid_user_group (line : String) : Option String :=
  (search_at match_invalid_user_capture line.toList).map String.mk

/-- The group of the nginx client regex of `_parse_nginx_log` line 213: literal
"client:", `\s+`, then a captured run of digits and dots. -/
def match_client_colon_capture (cs : List Char) : Option (List Char) :=
  (take_lit "client:".toList cs).bind fun r1 =>
  (take_plus is_space_char r1).bind fun r2 =>
  (take_plus (fun c => c.isDigit || c = '.') r2.2).map fun r3 => r3.1

/-- Group 1 of searching the nginx client regex of `_parse_nginx_log` line 213. -/
def re_client_colon_group (line : String) : Option String :=
  (search_at match_client_colon_capture line.toList).map String.mk

/-- The group of the apache client regex of `_parse_apache_log` line 240: literal
"client", `\s+`, then a captured run of digits and dots. -/
def match_client_capture (cs : List Char) : Option (List Char) :=
  (take_lit "client".toList cs).bind fun r1 =>
  (take_plus is_space_char r1).bind fun r2 =>
  (take_plus (fun c => c.isDigit || c = '.') r2.2).map fun r3 => r3.1

/-- Group 1 of searching the apache client regex of `_parse_apache_log` line 240. -/
def re_client_group (line : String) : Option String :=
  (search_at match_client_capture line.toList).map String.mk

/-- Case-insensitive `re.search` of a regex with shape `x.*` or `.*x.*`:
the lowered line contains the lowered literal. -/
def ci_contains (x : String) (line : String) : Bool :=
  py_in (lowerList x.toList) (lowerList line.toList)

/-- Case-insensitive `re.search` of a regex with shape `x.*y.*` or `.*x.*y.*`:
some occurrence of `x` is followed by `y` in the lowered line. -/
def ci_seq (x y : String) (line : String) : Bool :=
  search_seq (lowerList x.toList) (lowerList y.toList) (lowerList line.toList)

/-! ## Severity and cause classification -/

/-- crash_detector.py `_determine_severity` (lines 163-174): case-folded keyword
groups checked in order. -/
def determine_severity (line : String) : String :=
  let l := lowerList line.toList
  if ["panic", "oops", "fatal", "critical"].any (fun w => py_in w.toList l) then "critical"
  else if ["error", "fail", "segfault"].any (fun w => py_in w.toList l) then "high"
  else if ["warning", "warn"].any (fun w => py_in w.toList l) then "medium"
  else "low"

/-- crash_detector.py `_determine_cause` (lines 176-198): the ordered
`if`/`elif` chain on the case-folded line. -/
def determine_cause (line : String) : String :=
  let l := lowerList line.toList
  if py_in "kernel".toList l && (py_in "panic".toList l || py_in "oops".toList l) then
    "kernel_panic"
  else if py_in "segfault".toList l then "segmentation_fault"
  else if py_in "out of memory".toList l || py_in "oom".toList l then "out_of_memory"
  else if py_in "hardware error".toList l || py_in "machine check".toList l then
    "hardware_error"
  else if py_in "filesystem".toList l && py_in "error".toList l then "filesystem_error"
  else if py_in "i/o error".toList l then "io_error"
  else if py_in "network".toList l && (py_in "unreachable".toList l || py_in "refused".toList l)
    then "network_error"
  else if py_in "service".toList l && py_in "failed".toList l then "service_failure"
  else "unknown"

/-- First-match-wins scan of keyword groups in priority order, as the claims
describe severity determination; to be compared with the code. -/
def run_group_scan : List (List String × String) → String → List Char → String
  | [], dflt, _ => dflt
  | g :: gs, dflt, l =>
    if g.1.any (fun w => py_in w.toList l) then g.2 else run_group_scan gs dflt l

/-- The severity groups the crash detector actually uses. -/
def crash_severity_groups : List (List String × String) :=
  [(["panic", "oops", "fatal", "critical"], "critical"),
   (["error", "fail", "segfault"], "high"),
   (["warning", "warn"], "medium")]

/-- The severity groups the generic log parser actually uses. -/
def generic_severity_groups : List (List String × String) :=
  [(["fatal", "critical", "emergency"], "critical"),
   (["error", "fail"], "high"),
   (["warning", "warn"], "medium")]

/-- First-match-wins run of an ordered decision list, as claim C6 describes cause
classification; to be compared with the code. -/
def run_decision_list : List ((List Char → Bool) × String) → List Char → String
  | [], _ => "unknown"
  | r :: rs, l => if r.1 l then r.2 else run_decision_list rs l

/-- The ordered cause rules of claim C6 stated as a decision list. -/
def cause_rules : List ((List Char → Bool) × String) :=
  [(fun l => py_in "kernel".toList l && (py_in "panic".toList l || py_in "oops".toList l),
      "kernel_panic"),
   (fun l => py_in "segfault".toList l, "segmentation_fault"),
   (fun l => py_in "out of memory".toList l || py_in "oom".toList l, "out_of_memory"),
   (fun l => py_in "hardware error".toList l || py_in "machine check".toList l,
      "hardware_error"),
   (fun l => py_in "filesystem".toList l && py_in "error".toList l, "filesystem_error"),
   (fun l => py_in "i/o error".toList l, "io_error"),
   (fun l => py_in "network".toList l
      && (py_in "unreachable".toList l || py_in "refused".toList l), "network_error"),
   (fun l => py_in "service".toList l && py_in "failed".toList l, "service_failure")]

/-! ## Events and per-source parsers -/

/-- The event dictionary built by the log_monitor parsers; keys the code only
sometimes sets are `Option`-valued. -/
structure LogEvent where
  type : String
  log_file : String
  timestamp : Option String
  raw_line : String
  pattern_matched : String
  severity : String
  event_type : Option String
  username : Option String
  source_ip : Option String
  client_ip : Option String
deriving DecidableEq

/-- log_monitor.py `_parse_auth_log` (lines 157-190).  The branch tests use the
case-sensitive Python substring operator. -/
def parse_auth_log (path line patRaw : String) : LogEvent :=
  let base : LogEvent :=
    { type := "auth_event", log_file := path,
      timestamp := monitor_extract_timestamp line, raw_line := line,
      pattern_matched := patRaw, severity := "medium",
      event_type := none, username := none, source_ip := none, client_ip := none }
  if py_in "Failed password".toList line.toList then
    { base with
      event_type := some "failed_login",
      severity := "high",
      username := re_user_group line,
      source_ip := re_fromip_group line }
  else if py_in "Invalid user".toList line.toList then
    { base with
      event_type := some "invalid_user",
      severity := "high",
      username := re_invalid_user_group line }
  else base

/-- log_monitor.py `_parse_nginx_log` (lines 192-217). -/
def parse_nginx_log (path line patRaw : String) : LogEvent :=
  { type := "nginx_error", log_file := path,
    timestamp := monitor_extract_timestamp line, raw_line := line,
    pattern_matched := patRaw,
    severity :=
      if py_in "[emerg]".toList line.toList then "critical"
      else if py_in "[alert]".toList line.toList || py_in "[crit]".toList line.toList then
        "high"
      else if py_in "[error]".toList line.toList then "medium"
      else "low",
    event_type := none, username := none, source_ip := none,
    client_ip := re_client_colon_group line }

/-- log_monitor.py `_parse_apache_log` (lines 219-244). -/
def parse_apache_log (path line patRaw : String) : LogEvent :=
  { type := "apache_error", log_file := path,
    timestamp := monitor_extract_timestamp line, raw_line := line,
    pattern_matched := patRaw,
    severity :=
      if py_in "[emerg]".toList line.toList then "critical"
      else if py_in "[alert]".toList line.toList || py_in "[crit]".toList line.toList then
        "high"
      else if py_in "[error]".toList line.toList then "medium"
      else "low",
    event_type := none, username := none, source_ip := none,
    client_ip := re_client_group line }

/-- log_monitor.py `_parse_mysql_log` (lines 246-264). -/
def parse_mysql_log (path line patRaw : String) : LogEvent :=
  { type := "mysql_error", log_file := path,
    timestamp := monitor_extract_timestamp line, raw_line := line,
    pattern_matched := patRaw,
    severity :=
      if py_in "FATAL".toList line.toList then "critical"
      else if py_in "ERROR".toList line.toList then "high"
      else "medium",
    event_type := none, username := none, source_ip := none, client_ip := none }

/-- log_monitor.py `_parse_generic_log` (lines 266-288): the initial "medium" is
always overwritten by the keyword scan, whose `else` branch yields "low". -/
def parse_generic_log (path line patRaw : String) : LogEvent :=
  let l := lowerList line.toList
  { type := "log_event", log_file := path,
    timestamp := monitor_extract_timestamp line, raw_line := line,
    pattern_matched := patRaw,
    severity :=
      if ["fatal", "critical", "emergency"].any (fun w => py_in w.toList l) then "critical"
      else if ["error", "fail"].any (fun w => py_in w.toList l) then "high"
      else if ["warning", "warn"].any (fun w => py_in w.toList l) then "medium"
      else "low",
    event_type := none, username := none, source_ip := none, client_ip := none }

/-! ## Pattern tables and line analysis -/

/-- One configured pattern of the log monitor: the regex string of the
configuration together with its hand-compiled search function. -/
structure MPattern where
  raw : String
  search : String → Bool

/-- One log_monitor source configuration; `parser_kind` embeds the "parser" key. -/
structure LogConfig where
  path : String
  parser_kind : String
  patterns : List MPattern

/-- One compiled crash pattern of the crash detector. -/
structure CrashPattern where
  raw : String
  search : String → Bool

/-- The crash event dictionary of `_extract_crash_info` (lines 131-144); the
`process` and `additional_info` fields are not modelled, no claim concerns them. -/
structure CrashInfo where
  timestamp : Option String
  log_file : String
  raw_line : String
  pattern_matched : String
  severity : String
  cause : String
deriving DecidableEq

/-- crash_detector.py `_extract_crash_info` (lines 131-144). -/
def extract_crash_info (line path : String) (p : CrashPattern) : CrashInfo :=
  { timestamp := crash_extract_timestamp line, log_file := path, raw_line := line,
    pattern_matched := p.raw, severity := determine_severity line,
    cause := determine_cause line }

/-- The shared first-match loop of both `_analyze_line` methods: patterns are
tried in table order and the first whose search succeeds wins. -/
def first_matching {α : Type} (sel : α → String → Bool) : List α → String → Option α
  | [], _ => none
  | p :: ps, line => if sel p line then some p else first_matching sel ps line

/-- crash_detector.py `_analyze_line` (lines 119-129): empty lines yield nothing;
otherwise the first matching pattern produces the crash info. -/
def analyze_line_crash (patterns : List CrashPattern) (path line : String) :
    Option CrashInfo :=
  if line = "" then none
  else (first_matching (fun p l => p.search l) patterns line).map (extract_crash_info line path)

/-- log_monitor.py `_analyze_line` (lines 130-140) composed with `_parse_log_line`
(lines 142-155): first matching configured pattern, then the parser dispatch on
the "parser" key. -/
def parse_log_line (line : String) (config : LogConfig) (patRaw : String) : LogEvent :=
  if config.parser_kind = "auth" then parse_auth_log config.path line patRaw
  else if config.parser_kind = "nginx" then parse_nginx_log config.path line patRaw
  else if config.parser_kind = "apache" then parse_apache_log config.path line patRaw
  else if config.parser_kind = "mysql" then parse_mysql_log config.path line patRaw
  else parse_generic_log config.path line patRaw

/-- log_monitor.py `_analyze_line` (lines 130-140). -/
def analyze_line_monitor (config : LogConfig) (line : String) : Option LogEvent :=
  if line = "" then none
  else (first_matching (fun p l => p.search l) config.patterns line).map
    (fun p => parse_log_line line config p.raw)

/-- The compiled default pattern table of the crash detector (crash_detector.py
lines 23-60), each regex hand-compiled to its search function. -/
def crash_patterns : List CrashPattern :=
  [⟨"kernel:.*panic.*", ci_seq "kernel:" "panic"⟩,
   ⟨"kernel:.*Oops.*", ci_seq "kernel:" "Oops"⟩,
   ⟨"kernel:.*BUG.*", ci_seq "kernel:" "BUG"⟩,
   ⟨"kernel:.*Call Trace.*", ci_seq "kernel:" "Call Trace"⟩,
   ⟨"segfault.*", ci_contains "segfault"⟩,
   ⟨"general protection fault.*", ci_contains "general protection fault"⟩,
   ⟨"Out of memory.*", ci_contains "Out of memory"⟩,
   ⟨"oom-killer.*", ci_contains "oom-killer"⟩,
   ⟨"Memory cgroup out of memory.*", ci_contains "Memory cgroup out of memory"⟩,
   ⟨"Machine check events logged.*", ci_contains "Machine check events logged"⟩,
   ⟨"Hardware Error.*", ci_contains "Hardware Error"⟩,
   ⟨"EDAC.*error.*", ci_seq "EDAC" "error"⟩,
   ⟨".*service.*failed.*", ci_seq "service" "failed"⟩,
   ⟨".*systemd.*failed.*", ci_seq "systemd" "failed"⟩,
   ⟨".*crashed.*", ci_contains "crashed"⟩,
   ⟨".*filesystem.*error.*", ci_seq "filesystem" "error"⟩,
   ⟨".*I/O error.*", ci_contains "I/O error"⟩,
   ⟨".*corruption.*", ci_contains "corruption"⟩,
   ⟨".*network.*unreachable.*", ci_seq "network" "unreachable"⟩,
   ⟨".*connection.*refused.*", ci_seq "connection" "refused"⟩]

/-- The default auth source (log_monitor.py `_get_default_log_configs`
lines 29-37). -/
def auth_config : LogConfig :=
  { path := "/var/log/auth.log", parser_kind := "auth",
    patterns :=
      [⟨"Failed password.*", ci_contains "Failed password"⟩,
       ⟨"Invalid user.*", ci_contains "Invalid user"⟩,
       ⟨"authentication failure.*", ci_contains "authentication failure"⟩] }

/-- The default source list (log_monitor.py `_get_default_log_configs`
lines 26-67). -/
def default_log_configs : List LogConfig :=
  [auth_config,
   { path := "/var/log/nginx/error.log", parser_kind := "nginx",
     patterns :=
       [⟨".*\\[error\\].*", ci_contains "[error]"⟩,
        ⟨".*\\[crit\\].*", ci_contains "[crit]"⟩,
        ⟨".*\\[alert\\].*", ci_contains "[alert]"⟩,
        ⟨".*\\[emerg\\].*", ci_contains "[emerg]"⟩] },
   { path := "/var/log/apache2/error.log", parser_kind := "apache",
     patterns :=
       [⟨".*\\[error\\].*", ci_contains "[error]"⟩,
        ⟨".*\\[crit\\].*", ci_contains "[crit]"⟩,
        ⟨".*\\[alert\\].*", ci_contains "[alert]"⟩,
        ⟨".*\\[emerg\\].*", ci_contains "[emerg]"⟩] },
   { path := "/var/log/mysql/error.log", parser_kind := "mysql",
     patterns :=
       [⟨".*ERROR.*", ci_contains "ERROR"⟩,
        ⟨".*FATAL.*", ci_contains "FATAL"⟩,
        ⟨".*Aborted connection.*", ci_contains "Aborted connection"⟩] }]

/-- The kernel Oops scenario line of claim C6. -/
def oops_line : String := "Dec 25 14:30:45 server kernel: [12345.678901] Oops: 0002 [#1] SMP"

/-- The sshd scenario line of claim C7. -/
def auth_line : String :=
  "Jan  2 03:04:05 host sshd[123]: Failed password for invalid user admin from 10.0.0.5 port 222"

/-! ## Claims C4 to C7 -/

/-- C4, amended.  Severity is a case-folded substring scan of keyword groups in
fixed priority order, but with the groups the code actually carries:
panic/oops/fatal/critical then error/fail/segfault then warning/warn in the crash
detector, and fatal/critical/emergency then error/fail then warning/warn in the
generic parser — "emerg", "alert" and "crit" on their own are in neither table.
A line containing both "error" and "warning" (and no top-group keyword) is high
in both classifiers, regardless of token order. -/
theorem severity_keyword_priority :
    (∀ line, determine_severity line
       = run_group_scan crash_severity_groups "low" (lowerList line.toList)) ∧
    (∀ path line patRaw, (parse_generic_log path line patRaw).severity
       = run_group_scan generic_severity_groups "low" (lowerList line.toList)) ∧
    (∀ line,
       String.toList "error" <:+: lowerList line.toList →
       String.toList "warning" <:+: lowerList line.toList →
       (∀ w ∈ ["panic", "oops", "fatal", "critical", "emergency"],
          ¬ (String.toList w <:+: lowerList line.toList)) →
       determine_severity line = "high" ∧
       ∀ path patRaw, (parse_generic_log path line patRaw).severity = "high") := by
  refine ⟨fun _ => rfl, fun _ _ _ => rfl, ?_⟩
  intro line h1 h2 h3
  have he : py_in (String.toList "error") (lowerList line.toList) = true :=
    (py_in_iff _ _).mpr h1
  have hp : py_in (String.toList "panic") (lowerList line.toList) = false :=
    py_in_false_of_not (h3 "panic" (by simp))
  have ho : py_in (String.toList "oops") (lowerList line.toList) = false :=
    py_in_false_of_not (h3 "oops" (by simp))
  have hf : py_in (String.toList "fatal") (lowerList line.toList) = false :=
    py_in_false_of_not (h3 "fatal" (by simp))
  have hc : py_in (String.toList "critical") (lowerList line.toList) = false :=
    py_in_false_of_not (h3 "critical" (by simp))
  have hem : py_in (String.toList "emergency") (lowerList line.toList) = false :=
    py_in_false_of_not (h3 "emergency" (by simp))
  simp only [String.toList] at he hp ho hf hc hem
  constructor
  · simp [determine_severity, hp, ho, hf, hc, he]
  · intro path patRaw
    simp [parse_generic_log, hf, hc, hem, he]

/-- C4 witness: both token orders classify as high in both classifiers. -/
theorem severity_keyword_priority_witness :
    determine_severity "warning before error" = "high" ∧
    determine_severity "error before warning" = "high" ∧
    (parse_generic_log "/var/log/app.log" "warning before error" ".*").severity = "high" := by
  refine ⟨?_, ?_, ?_⟩
  · exact (severity_keyword_priority.2.2 "warning before error"
      (by decide) (by decide) (by decide)).1
  · exact (severity_keyword_priority.2.2 "error before warning"
      (by decide) (by decide) (by decide)).1
  · exact (severity_keyword_priority.2.2 "warning before error"
      (by decide) (by decide) (by decide)).2 "/var/log/app.log" ".*"

/-- C4 counterexample.  The line "emerg alert" contains the claimed critical
keyword "emerg" and the claimed high keyword "alert", yet both severity
classifiers of the code return "low": the groups of the claim do not match the
groups of the code. -/
theorem severity_emerg_alert_counterexample :
    String.toList "emerg" <:+: lowerList (String.toList "emerg alert") ∧
    String.toList "alert" <:+: lowerList (String.toList "emerg alert") ∧
    determine_severity "emerg alert" = "low" ∧
    (parse_generic_log "/var/log/nginx/error.log" "emerg alert" ".*").severity = "low" := by
  refine ⟨by decide, by decide, by decide, by decide⟩

theorem first_matching_append {α : Type} (sel : α → String → Bool) (ps₁ ps₂ : List α)
    (p : α) (line : String) (h1 : ∀ q ∈ ps₁, sel q line = false) (hp : sel p line = true) :
    first_matching sel (ps₁ ++ p :: ps₂) line = some p := by
  induction ps₁ with
  | nil => simp [first_matching, hp]
  | cons q qs ih =>
    have hq : sel q line = false := h1 q (by simp)
    simp only [List.cons_append, first_matching, hq, Bool.false_eq_true, if_false]
    exact ih (fun r hr => h1 r (List.mem_cons_of_mem _ hr))

/-- C5.  Pattern-order precedence: in both analyzers, a nonempty line matched by a
pattern `p` is classified by the first matching pattern in table order — patterns
before `p` that do not match are skipped, `p` wins no matter what follows it, and
at most one event is produced.  Nonemptiness is no restriction for the shipped
tables: no default crash pattern and no default log_monitor pattern matches the
empty line, so the empty-line guard never discards a matched line. -/
theorem pattern_order_precedence :
    (∀ (ps₁ ps₂ : List CrashPattern) (p : CrashPattern) (path line : String),
       line ≠ "" → (∀ q ∈ ps₁, q.search line = false) → p.search line = true →
       analyze_line_crash (ps₁ ++ p :: ps₂) path line
         = some (extract_crash_info line path p)) ∧
    (∀ (ps₁ ps₂ : List MPattern) (p : MPattern) (cpath ckind line : String),
       line ≠ "" → (∀ q ∈ ps₁, q.search line = false) → p.search line = true →
       analyze_line_monitor { path := cpath, parser_kind := ckind, patterns := ps₁ ++ p :: ps₂ }
           line
         = some (parse_log_line line
             { path := cpath, parser_kind := ckind, patterns := ps₁ ++ p :: ps₂ } p.raw)) ∧
    (∀ q ∈ crash_patterns, q.search "" = false) ∧
    (∀ cfg ∈ default_log_configs, ∀ q ∈ cfg.patterns, q.search "" = false) := by
  refine ⟨?_, ?_, by decide, by decide⟩
  · intro ps₁ ps₂ p path line hline h1 hp
    simp only [analyze_line_crash, if_neg hline]
    rw [first_matching_append (fun p l => p.search l) ps₁ ps₂ p line h1 hp]
    rfl
  · intro ps₁ ps₂ p cpath ckind line hline h1 hp
    simp only [analyze_line_monitor, if_neg hline]
    rw [first_matching_append (fun p l => p.search l) ps₁ ps₂ p line h1 hp]
    rfl

/-- C5 witness: the Oops line matches the second default crash pattern but not the
first, and the produced event is the one extracted from the second pattern. -/
theorem pattern_order_precedence_witness :
    analyze_line_crash
        [⟨"kernel:.*panic.*", ci_seq "kernel:" "panic"⟩,
         ⟨"kernel:.*Oops.*", ci_seq "kernel:" "Oops"⟩] "/var/log/syslog" oops_line
      = some (extract_crash_info oops_line "/var/log/syslog"
          ⟨"kernel:.*Oops.*", ci_seq "kernel:" "Oops"⟩) :=
  pattern_order_precedence.1 [⟨"kernel:.*panic.*", ci_seq "kernel:" "panic"⟩] []
    ⟨"kernel:.*Oops.*", ci_seq "kernel:" "Oops"⟩ "/var/log/syslog" oops_line
    (by decide) (by decide) (by decide)

/-- C6.  The cause of a crash-detector line is the and-or decision list of the
claim, evaluated first-match-wins on the case-folded line; and the kernel Oops
scenario line classifies to cause kernel_panic, severity critical and timestamp
"Dec 25 14:30:45" through the full default pipeline. -/
theorem cause_decision_list_and_scenario :
    (∀ line, determine_cause line = run_decision_list cause_rules (lowerList line.toList)) ∧
    analyze_line_crash crash_patterns "/var/log/syslog" oops_line
      = some {
          timestamp := some "Dec 25 14:30:45",
          log_file := "/var/log/syslog",
          raw_line := oops_line,
          pattern_matched := "kernel:.*Oops.*",
          severity := "critical",
          cause := "kernel_panic" } :=
  ⟨fun _ => rfl, rfl⟩

/-- C6 witness: the decision-list reading of `determine_cause` computes
service_failure on a concrete service line. -/
theorem cause_decision_list_and_scenario_witness :
    determine_cause "the backup service has failed twice" = "service_failure" := by
  rw [cause_decision_list_and_scenario.1 "the backup service has failed twice"]
  decide

/-- C7.  The sshd failed-password line, matched against the default auth source,
yields exactly one event: failed_login, severity high, username "admin", source
address "10.0.0.5" — the Failed-password branch precedes the Invalid-user branch,
so the line is never classified as invalid_user. -/
theorem auth_failed_login_scenario :
    auth_config ∈ default_log_configs ∧
    analyze_line_monitor auth_config auth_line
      = some {
          type := "auth_event",
          log_file := "/var/log/auth.log",
          timestamp := some "Jan  2 03:04:05",
          raw_line := auth_line,
          pattern_matched := "Failed password.*",
          severity := "high",
          event_type := some "failed_login",
          username := some "admin",
          source_ip := some "10.0.0.5",
          client_ip := none } ∧
    (parse_auth_log "/var/log/auth.log" auth_line "Failed password.*").event_type
      ≠ some "invalid_user" :=
  ⟨List.mem_cons_self _ _, rfl, by decide⟩

end ServerPulse
